import Mathlib

/-!
Verification of the `hcse_1_parser` ingestion pipeline.

This file gives a shallow embedding of the Rust sources
(`src/parser.rs`, `src/logger.rs`, `src/article.rs`, `src/main.rs`) and
settles the specification claims against it.  Stateful code becomes
explicit state passing; the IO-dependent outcome of each pipeline stage
(network, filesystem) becomes an explicit environment value; machine
integers become `Nat`/`Int`; fallible code returns `Except`/`Option`,
with `Option.none` standing for a Rust panic (`unwrap` failure).
-/

/-- `ParserState` from `src/parser.rs`: the tagged status values carried on
the progress channel.  `u8` percentages and `usize` counts become `Nat`. -/
inductive ParserState where
  | Restarting
  | Waiting
  | Downloading (percent : Nat)
  | CheckMd5
  | Extracting (percent : Nat)
  | Processing (percent : Nat)
  | WritingFile
  | FinishedInputFile (count : Nat)
  | Done
  | ErrorDownloadFailed
  | ErrorChecksumWrong
  | ErrorExtractionFailed
  | ErrorParsingFailed
  | ErrorWritingFailed
  | Terminate
  deriving DecidableEq, Repr

/-- `ParserMessage` from `src/parser.rs`: one progress-channel event. -/
structure ParserMessage where
  id : Nat
  new_state : ParserState
  deriving DecidableEq, Repr

/-! ## The job allocator (`Parser::try_restart`, `src/parser.rs` lines 75-87)

The shared counter is an `AtomicI32`; a claim is the two-instruction
sequence `fetch_sub(1, SeqCst)` followed by a separate `load(SeqCst)`.
We model the concurrent system as an interleaving of these two atomic
actions: each scheduled step runs one worker's next pending action. -/

/-- One worker of the claiming system: `midClaim` is true between its
`fetch_sub` and the following `load`; `claimed` lists the counter values it
took as job indices; `done` is set when the loaded value was negative. -/
structure WorkerState where
  midClaim : Bool
  claimed : List Int
  done : Bool
  deriving DecidableEq, Repr

/-- The concurrent claiming system: the shared `AtomicI32` counter plus the
local state of every worker. -/
structure AllocSys where
  counter : Int
  workers : List WorkerState
  deriving DecidableEq, Repr

/-- Run one atomic action of worker `w`, exactly as `try_restart` issues
them: first `counter_arc.fetch_sub(1)` (a lone decrement whose return
value the source discards), then `counter_arc.load()` followed by the
sign test.  A worker whose load saw a negative value is done and takes no
further steps; a non-negative loaded value is claimed as the job index. -/
def allocStep (s : AllocSys) (w : Nat) : AllocSys :=
  match s.workers.get? w with
  | none => s
  | some ws =>
    if ws.done then s
    else if ws.midClaim = false then
      let ws1 := { ws with midClaim := true }
      { counter := s.counter - 1, workers := s.workers.set w ws1 }
    else
      let v := s.counter
      if v < 0 then
        let ws1 := { ws with midClaim := false, done := true }
        { s with workers := s.workers.set w ws1 }
      else
        let ws1 := { ws with midClaim := false, claimed := ws.claimed ++ [v] }
        { s with workers := s.workers.set w ws1 }

/-- Execute a schedule: a list of worker ids, each entry running that
worker's next atomic action. -/
def allocExec (init : AllocSys) (sched : List Nat) : AllocSys :=
  sched.foldl allocStep init

/-- Fresh worker state before its first claim. -/
def workerInit : WorkerState := { midClaim := false, claimed := [], done := false }

/-- The claiming system for `total` jobs and two workers, as the
orchestrator seeds it (`AtomicI32::new(n_files)` in `src/main.rs`). -/
def allocInit2 (total : Int) : AllocSys :=
  { counter := total, workers := [workerInit, workerInit] }

/-! ## Path derivation (`Parser::reinit_for_index`, `src/parser.rs` lines 89-100)

Each worker owns one temporary staging directory string (`temp_dir`,
created once in `Parser::initialize` from the OS temp-dir facility); all
staging paths for a job are built under it, while the output artifact
path is built from the job index alone. -/

/-- Rust `format!("{:0>4}", n)`: left-pad the decimal digits to width 4
with the zero character. -/
def pad4 (n : Nat) : String :=
  let s := toString n
  String.mk (List.replicate (4 - s.length) '0') ++ s

/-- `fname` in `reinit_for_index`: `format!("pubmed24n{:0>4}.xml", index)`. -/
def fname (index : Nat) : String :=
  "pubmed24n" ++ pad4 index ++ ".xml"

/-- `self.download_url` as set by `reinit_for_index`. -/
def download_url (index : Nat) : String :=
  "https://ftp.ncbi.nlm.nih.gov/pubmed/baseline/" ++ fname index ++ ".gz"

/-- `self.local_download_filename`: the staged compressed archive. -/
def local_download_filename (temp_dir : String) (index : Nat) : String :=
  temp_dir ++ "/" ++ (fname index ++ ".gz")

/-- `self.md5_file_name`: the staged checksum file. -/
def md5_file_name (temp_dir : String) (index : Nat) : String :=
  temp_dir ++ "/" ++ (fname index ++ ".gz.md5")

/-- `self.extracted_filename`: the staged decompressed document. -/
def extracted_filename (temp_dir : String) (index : Nat) : String :=
  temp_dir ++ "/" ++ fname index

/-- `self.output_filename`: the output artifact path,
`format!("results_{}.json", fname)` — a function of the index alone. -/
def output_filename (index : Nat) : String :=
  "results_" ++ fname index ++ ".json"

/-! ## The domain record (`src/article.rs`) -/

/-- `Author` from `src/article.rs`. -/
structure Author where
  first_name : String
  last_name : String
  deriving DecidableEq, Repr

/-- `Article` from `src/article.rs`. -/
structure Article where
  title : String
  id : String
  paper_abstract : String
  authors : List Author
  tags : List String
  date : String
  language : String
  deriving DecidableEq, Repr

/-- Contiguous-sublist test on character lists (helper for `containsSub`). -/
def charsContain (pat : List Char) : List Char → Bool
  | [] => pat.isPrefixOf []
  | c :: t => pat.isPrefixOf (c :: t) || charsContain pat t

/-- Rust `String::contains(pat)`: substring containment. -/
def containsSub (hay pat : String) : Bool :=
  charsContain pat.data hay.data

/-- `Article::is_valid` (`src/article.rs` lines 115-120): all mandatory
identifying fields non-empty. -/
def Article.is_valid (a : Article) : Bool :=
  a.title != "" && a.date != "" && a.authors.length > 0 && a.id != ""

/-- `Article::is_string_relevant` (`src/article.rs` lines 144-155). -/
def Article.is_string_relevant (some_text : String) : Bool :=
  if containsSub some_text "cancer" then true
  else if containsSub some_text "oncology" then true
  else if containsSub some_text "tumor" then true
  else false

/-- `Article::is_article_relevant` (`src/article.rs` lines 139-142). -/
def Article.is_article_relevant (a : Article) : Bool :=
  Article.is_string_relevant a.title && Article.is_string_relevant a.paper_abstract

/-! ## Progress-percentage reporting (`Parser::download`, `Parser::process`)

The source computes `100 as f32 * processed as f32 / total as f32`,
floors it, and casts to `u8`.  We model the computation in exact
arithmetic: `PctVal.fin n` is a finite floor value, `PctVal.inf` the
result of dividing a positive count by a zero total (`content_length`
absent), `PctVal.nan` the result of `0.0 / 0.0`.  The Rust float-to-int
cast saturates (`∞ ↦ 255`, NaN `↦ 0`); `NaN > x` is false, `∞ > x` is
true.  (For the magnitudes the claims exercise the `f32` arithmetic of
the source is exact, so the exact-arithmetic floor agrees with it.) -/

/-- The floored percentage value as an extended number. -/
inductive PctVal where
  | nan
  | inf
  | fin (n : Nat)
  deriving DecidableEq, Repr

/-- `(100 * processed / total).floor` over `f32`, in exact arithmetic. -/
def pctVal (processed total : Nat) : PctVal :=
  if total = 0 then (if processed = 0 then PctVal.nan else PctVal.inf)
  else PctVal.fin (100 * processed / total)

/-- The comparison `new_percentage.floor() > last as f32`. -/
def pctGt (v : PctVal) (last : Nat) : Bool :=
  match v with
  | PctVal.nan => false
  | PctVal.inf => true
  | PctVal.fin n => decide (last < n)

/-- The saturating cast `floor_value as u8`. -/
def pctCast (v : PctVal) : Nat :=
  match v with
  | PctVal.nan => 0
  | PctVal.inf => 255
  | PctVal.fin n => min n 255

/-- The chunk loop of `Parser::download` (`src/parser.rs` lines 156-165):
accumulate chunk lengths into `processed` and report the cast floor
percentage whenever the (uncast) floor strictly exceeds the last reported
value. -/
def downloadLoop (total : Nat) : List Nat → Nat → Nat → List Nat
  | [], _, _ => []
  | c :: rest, processed, last =>
    let p := processed + c
    let v := pctVal p total
    if pctGt v last then pctCast v :: downloadLoop total rest p (pctCast v)
    else downloadLoop total rest p last

/-- The complete percentage sequence reported by a successful
`Parser::download` for content length `total` and chunk sizes `chunks`:
an unconditional initial `Downloading(0)`, the chunk-loop reports, and an
unconditional final `Downloading(100)` (lines 152-155 and 166). -/
def downloadReports (total : Nat) (chunks : List Nat) : List Nat :=
  0 :: downloadLoop total chunks 0 0 ++ [100]

/-- The article loop of `Parser::process` (`src/parser.rs` lines 218-230):
here the source casts the floor to `u8` first and compares in `u8`
(`new_percentage > last_reported_percentage`).  `k` counts the remaining
articles of `total`. -/
def processLoop (total : Nat) : Nat → Nat → Nat → List Nat
  | 0, _, _ => []
  | k + 1, processed, last =>
    let p := processed + 1
    let np := pctCast (pctVal p total)
    if last < np then np :: processLoop total k p np
    else processLoop total k p last

/-- The complete percentage sequence reported by `Parser::process` over
`total` `PubmedArticle` nodes: `Processing(0)` first (line 201), then the
loop reports. -/
def processReports (total : Nat) : List Nat :=
  0 :: processLoop total total 0 0

/-- The percentage milestones hard-coded in `Parser::extract`
(`src/parser.rs` lines 187, 190, 194, 196). -/
def extractReportPcts : List Nat := [0, 10, 90, 100]

/-! ## The per-job pipeline (`Parser::run`, `src/parser.rs` lines 102-131)

The outcome of each IO-dependent operation is an explicit environment
value.  `Option.none` models a Rust panic (a failing `unwrap`), which
kills the worker task on the spot. -/

/-- The IO outcomes a single job can observe. -/
structure JobEnv where
  /-- `Path::new(&self.output_filename).exists()` -/
  file_present : Bool
  /-- `download()`: `Except.ok (content_length, chunk sizes)` for a
  completed stream, `Except.error ()` for a network or file error. -/
  download : Except Unit (Nat × List Nat)
  /-- `check_md5` fetch/write/read of the `.md5` file succeeded -/
  md5_io_ok : Bool
  /-- the trimmed reference digest equals the computed digest -/
  md5_matches : Bool
  /-- `extract`: open and write succeeded (decoder errors are discarded
  by the source: `let _ = gz.read_to_string(..)`) -/
  extract_ok : Bool
  /-- `process`: the `read_to_string` and `Document::parse` unwraps
  succeeded (`false` = panic) -/
  process_io_ok : Bool
  /-- the articles yielded per `PubmedArticle` node by the document walk -/
  parsed_articles : List Article
  /-- `write_output`: the `File::create` and `write_all` unwraps
  succeeded (`false` = panic) -/
  write_io_ok : Bool
  deriving Repr

/-- `Parser::check_if_file_is_present` (`src/parser.rs` lines 133-135). -/
def check_if_file_is_present (env : JobEnv) : Bool :=
  env.file_present

/-- `Parser::download` (`src/parser.rs` lines 144-168): reported states
and result.  On an error the loop stops early; the trace up to the
failure point is a prefix of the full one and is not inspected by any
claim, so the error trace is modelled as the failure-before-first-report
case. -/
def download (env : JobEnv) : List ParserState × Except Unit Unit :=
  match env.download with
  | Except.error _ => ([], Except.error ())
  | Except.ok (total, chunks) =>
    ((downloadReports total chunks).map ParserState.Downloading, Except.ok ())

/-- `Parser::check_md5` (`src/parser.rs` lines 170-184): reports
`CheckMd5`, then fetches the reference digest and hashes the staged
archive; on success the *returned value* is the Boolean digest
comparison `checksum_from_control.trim() == checksum_from_file.md5_hash.trim()`. -/
def check_md5 (env : JobEnv) : List ParserState × Except Unit Bool :=
  ([ParserState.CheckMd5],
   if env.md5_io_ok then Except.ok env.md5_matches else Except.error ())

/-- `Parser::extract` (`src/parser.rs` lines 186-198): fixed milestone
reports; on failure only the initial `Extracting(0)` was reported. -/
def extract (env : JobEnv) : List ParserState × Except Unit Unit :=
  if env.extract_ok then
    (extractReportPcts.map ParserState.Extracting, Except.ok ())
  else
    ([ParserState.Extracting 0], Except.error ())

/-- `Parser::process` (`src/parser.rs` lines 200-232): reports
`Processing(0)`, then walks the `PubmedArticle` nodes, pushing each valid
article into `article_data` and reporting percentages.  The result is
`none` for a panic (the `unwrap` on `read_to_string` or
`Document::parse` fails — the function has no `Err` return of its own:
its `Result` is always `Ok`), otherwise the pushed article list stands in
for the `Ok(article_data.len())` return. -/
def process (env : JobEnv) : List ParserState × Option (Except Unit (List Article)) :=
  if env.process_io_ok then
    let kept := env.parsed_articles.filter Article.is_valid
    let total := env.parsed_articles.length
    ((processReports total).map ParserState.Processing, some (Except.ok kept))
  else
    ([ParserState.Processing 0], none)

/-- `Parser::filter_articles` (`src/parser.rs` lines 250-252). -/
def filter_articles (arts : List Article) : List Article :=
  arts.filter Article.is_article_relevant

/-- `Parser::write_output` (`src/parser.rs` lines 254-262): reports
`WritingFile`, serializes and writes `article_data` (panicking on a
failing `File::create` or `write_all` unwrap — so when the function
returns at all it returns `true`), removes the staging directory, and
reports `FinishedInputFile(article_data.len())`.  The written artifact
content accompanies the returned Boolean. -/
def write_output (env : JobEnv) (arts : List Article) :
    List ParserState × Option (Bool × List Article) :=
  if env.write_io_ok then
    ([ParserState.WritingFile, ParserState.FinishedInputFile arts.length],
     some (true, arts))
  else
    ([ParserState.WritingFile], none)

/-- The observable outcome of one `Parser::run` call. -/
structure RunResult where
  /-- every state reported on the progress channel during the call -/
  reports : List ParserState
  ran_download : Bool
  ran_check_md5 : Bool
  ran_extract : Bool
  ran_process : Bool
  ran_filter : Bool
  ran_write : Bool
  /-- the artifact content written by this call, if any -/
  written : Option (List Article)
  /-- a panic escaped the call, killing the worker task -/
  panicked : Bool
  deriving DecidableEq, Repr

/-- `Parser::run` (`src/parser.rs` lines 102-131), faithful to its
control flow: return early when the artifact is present; stop with
`ErrorDownloadFailed` / `ErrorChecksumWrong` / `ErrorExtractionFailed`
when the corresponding stage *returns* `Err` (note the checksum stage is
tested only with `is_err()` — its Boolean payload is dropped); report
`ErrorParsingFailed` without returning when `process` returns `Err`;
then filter and write, reporting `ErrorWritingFailed` when
`write_output` returns `false`.  A panic inside a stage propagates. -/
def Parser.run (env : JobEnv) : RunResult :=
  if check_if_file_is_present env then
    { reports := [], ran_download := false, ran_check_md5 := false,
      ran_extract := false, ran_process := false, ran_filter := false,
      ran_write := false, written := none, panicked := false }
  else
    let dl := download env
    match dl.2 with
    | Except.error _ =>
      { reports := dl.1 ++ [ParserState.ErrorDownloadFailed],
        ran_download := true, ran_check_md5 := false, ran_extract := false,
        ran_process := false, ran_filter := false, ran_write := false,
        written := none, panicked := false }
    | Except.ok _ =>
      let md := check_md5 env
      match md.2 with
      | Except.error _ =>
        { reports := dl.1 ++ md.1 ++ [ParserState.ErrorChecksumWrong],
          ran_download := true, ran_check_md5 := true, ran_extract := false,
          ran_process := false, ran_filter := false, ran_write := false,
          written := none, panicked := false }
      | Except.ok _is_checksum_correct =>
        let ex := extract env
        match ex.2 with
        | Except.error _ =>
          { reports := dl.1 ++ md.1 ++ ex.1 ++ [ParserState.ErrorExtractionFailed],
            ran_download := true, ran_check_md5 := true, ran_extract := true,
            ran_process := false, ran_filter := false, ran_write := false,
            written := none, panicked := false }
        | Except.ok _ =>
          let pr := process env
          match pr.2 with
          | none =>
            { reports := dl.1 ++ md.1 ++ ex.1 ++ pr.1,
              ran_download := true, ran_check_md5 := true, ran_extract := true,
              ran_process := true, ran_filter := false, ran_write := false,
              written := none, panicked := true }
          | some prVal =>
            let article_data := match prVal with
              | Except.ok l => l
              | Except.error _ => []
            let errRep : List ParserState := match prVal with
              | Except.ok _ => []
              | Except.error _ => [ParserState.ErrorParsingFailed]
            let filtered := filter_articles article_data
            let wr := write_output env filtered
            match wr.2 with
            | none =>
              { reports := dl.1 ++ md.1 ++ ex.1 ++ pr.1 ++ errRep ++ wr.1,
                ran_download := true, ran_check_md5 := true, ran_extract := true,
                ran_process := true, ran_filter := true, ran_write := true,
                written := none, panicked := true }
            | some wrVal =>
              let tail : List ParserState :=
                if wrVal.1 then [] else [ParserState.ErrorWritingFailed]
              { reports := dl.1 ++ md.1 ++ ex.1 ++ pr.1 ++ errRep ++ wr.1 ++ tail,
                ran_download := true, ran_check_md5 := true, ran_extract := true,
                ran_process := true, ran_filter := true, ran_write := true,
                written := some wrVal.2, panicked := false }

/-! ## The claim loop (`Parser::try_restart` run by one worker)

For a single worker executing `try_restart` (the other workers'
decrements can only lower the counter further, hastening exhaustion),
each iteration decrements the counter, loads it, and either reports
`Done` and returns (loaded value negative) or awaits the job body
(`reinit_for_index`, which reports `Restarting` and calls `run`) for the
loaded value and loops.  A panic escaping `run` (see
`C4_parse_failure_panics` / `C6_write_failure_panics` below) unwinds
through `try_restart` and kills the worker task: the loop ends without a
`Done` report.  The loop is modelled with fuel: `none` means the fuel
ran out before the loop ended. -/

/-- Fueled sequential execution of `try_restart` from counter value `c`,
with `envOf i` the IO outcomes job index `i` would observe.  Returns the
claimed indices, the worker's report trace, and whether the loop ended
by a panic escaping the job body (`true`) or by exhaustion with its
`Done` report (`false`); `none` if the fuel ran out first. -/
def try_restart (envOf : Nat → JobEnv) :
    Nat → Int → Option (List Int × List ParserState × Bool)
  | 0, _ => none
  | fuel + 1, c =>
    let c1 := c - 1
    if c1 < 0 then some ([], [ParserState.Done], false)
    else
      let r := Parser.run (envOf c1.toNat)
      if r.panicked then
        some ([c1], ParserState.Restarting :: r.reports, true)
      else
        match try_restart envOf fuel c1 with
        | none => none
        | some (cl, tr, p) =>
          some (c1 :: cl, ParserState.Restarting :: (r.reports ++ tr), p)

/-! ## The aggregator (`Logger`, `src/logger.rs`)

Only the counter state matters to the claims; display calls
(`set_message`, `set_position`, console writes) have no effect on it and
are omitted.  `Logger::run` loops: bump `clear_counter`; when it exceeds
9, redraw every worker slot via `update_view` and reset it; then block on
`recv`, break on `Terminate`, store the new state when the id is in
range, and call `update_view` for that id.  (For an id out of range the
Rust indexing in `update_view` would panic; the orchestrator only ever
sends ids `0..n_progs-1`, and no claim exercises that case.) -/

/-- The counter-relevant state of `Logger`. -/
structure LoggerState where
  n_progs : Nat
  last_parser_states : List ParserState
  finished_files : Nat
  found_articles : Nat
  deriving DecidableEq, Repr

/-- `Logger::update_article_and_file_counts` (`src/logger.rs` lines 154-157). -/
def Logger.update_article_and_file_counts (s : LoggerState) (articles : Nat) : LoggerState :=
  { s with finished_files := s.finished_files + 1,
           found_articles := s.found_articles + articles }

/-- `Logger::update_view` (`src/logger.rs` lines 111-152), restricted to
its effect on the counters: dispatch on the stored state for `index`;
only `FinishedInputFile(n)` touches the counters, every other arm only
drives the display. -/
def Logger.update_view (s : LoggerState) (index : Nat) : LoggerState :=
  match s.last_parser_states.getD index ParserState.Waiting with
  | ParserState.FinishedInputFile n => Logger.update_article_and_file_counts s n
  | _ => s

/-- One full-redraw pass (`src/logger.rs` lines 74-79): `update_view i`
for every `i` in `0..n_progs`. -/
def Logger.redraw (s : LoggerState) : LoggerState :=
  (List.range s.n_progs).foldl Logger.update_view s

/-- `Logger::run` (`src/logger.rs` lines 69-97) over a finite message
list: each iteration bumps `clear_counter`, redraws when it exceeds 9,
then receives the next message; `Terminate` breaks the loop; otherwise
the sender's slot is overwritten when the id is in range and
`update_view` runs for that id.  An exhausted list stands for a `recv`
that blocks from then on. -/
def Logger.runLoop : Nat → LoggerState → List ParserMessage → LoggerState
  | clear_counter, s, [] =>
    -- the top of one more iteration runs (and can redraw) before `recv`
    -- blocks for good
    let cc := clear_counter + 1
    if 9 < cc then Logger.redraw s else s
  | clear_counter, s, m :: rest =>
    let cc := clear_counter + 1
    let s1 := if 9 < cc then Logger.redraw s else s
    let cc1 := if 9 < cc then 0 else cc
    match m.new_state with
    | ParserState.Terminate => s1
    | _ =>
      let s2 :=
        if m.id < s1.n_progs then
          { s1 with last_parser_states := s1.last_parser_states.set m.id m.new_state }
        else s1
      Logger.runLoop cc1 (Logger.update_view s2 m.id) rest

/-- `Logger::new` (`src/logger.rs` lines 25-63): every slot starts as
`Waiting`, both counters at zero; then `run` processes the messages. -/
def Logger.processMessages (number_of_processes : Nat) (msgs : List ParserMessage) :
    LoggerState :=
  Logger.runLoop 0
    { n_progs := number_of_processes,
      last_parser_states := List.replicate number_of_processes ParserState.Waiting,
      finished_files := 0, found_articles := 0 }
    msgs

/-- The number of `FinishedInputFile` events in a message list. -/
def countFinished (msgs : List ParserMessage) : Nat :=
  msgs.countP (fun m =>
    match m.new_state with
    | ParserState.FinishedInputFile _ => true
    | _ => false)

/-! ## Supporting facts about dead error branches -/

/-- `write_output` can only return `true` (its failure modes are panics),
so the `ErrorWritingFailed` branch of `run` is unreachable. -/
theorem write_output_returns_true (env : JobEnv) (arts : List Article) :
    ∀ b l, (write_output env arts).2 = some (b, l) → b = true := by
  intro b l h
  unfold write_output at h
  by_cases hw : env.write_io_ok = true
  · simp [hw] at h
    exact h.1
  · simp [Bool.eq_false_iff.mpr hw] at h

/-- `process` never produces an `Err` value (its `Result` is always `Ok`;
its failure modes are panics), so the `ErrorParsingFailed` branch of
`run` is unreachable. -/
theorem process_never_err (env : JobEnv) :
    (process env).2 ≠ some (Except.error ()) := by
  unfold process
  by_cases hp : env.process_io_ok = true
  · simp [hp]
  · simp [Bool.eq_false_iff.mpr hp]

/-! ## Claim theorems -/

/-- C1: the claim states that concurrent claiming issues each job index in
`0..T-1` to exactly one worker because each claim is a single atomic
decrement-and-read.  The source instead performs `fetch_sub` and a
*separate* `load`: interleaving the two workers' decrements before either
load makes both workers claim index `0` and leaves index `1` unissued.
This theorem evaluates the claiming system at that failing schedule. -/
theorem C1_two_workers_claim_same_index :
    (allocExec (allocInit2 2) [0, 1, 0, 1]).workers.map WorkerState.claimed
      = [[0], [0]] ∧
    (allocExec (allocInit2 2) [0, 1, 0, 1]).counter = 0 := by
  decide

/-- The job environment of a checksum-mismatch run: both digest fetches
succeed, the digests differ, every later stage would succeed. -/
def envChecksumMismatch : JobEnv :=
  { file_present := false, download := Except.ok (10, [10]),
    md5_io_ok := true, md5_matches := false, extract_ok := true,
    process_io_ok := true, parsed_articles := [], write_io_ok := true }

/-- C2: the claim states a digest mismatch yields `ErrorChecksumWrong` and
stops the job before extraction.  In the source `check_md5` returns the
comparison as `Ok(bool)` and `run` tests only `is_err()`, so on a
mismatch the pipeline proceeds through extraction, parsing and
persisting and never reports `ErrorChecksumWrong`. -/
theorem C2_mismatch_runs_all_stages :
    (Parser.run envChecksumMismatch).ran_extract = true ∧
    (Parser.run envChecksumMismatch).ran_process = true ∧
    (Parser.run envChecksumMismatch).ran_write = true ∧
    (Parser.run envChecksumMismatch).written = some [] ∧
    ParserState.ErrorChecksumWrong ∉ (Parser.run envChecksumMismatch).reports := by
  decide

/-- A message sequence with exactly one `FinishedInputFile` event,
followed by enough traffic from the other worker for the periodic redraw
to fire while the first worker's slot still holds `FinishedInputFile`. -/
def c3msgs : List ParserMessage :=
  { id := 0, new_state := ParserState.FinishedInputFile 5 } ::
    (List.replicate 9 { id := 1, new_state := ParserState.Waiting } ++
      [{ id := 0, new_state := ParserState.Terminate }])

/-- C3: the claim states `filesCompleted` always equals the number of
`FinishedJob` messages received and `recordsAccepted` the sum of their
counts.  The periodic full redraw (`clear_counter > 9`) re-dispatches the
*stored* per-worker state through `update_view`, so a slot still holding
`FinishedInputFile` is counted again: after one `FinishedInputFile(5)`
message and nine unrelated messages the counters read 2 and 10. -/
theorem C3_redraw_double_counts :
    countFinished c3msgs = 1 ∧
    (Logger.processMessages 2 c3msgs).finished_files = 2 ∧
    (Logger.processMessages 2 c3msgs).found_articles = 10 := by
  decide

/-- The job environment of a parse failure: the staged archive extracts
(decoder errors are discarded), but the resulting text is not
well-formed XML, so the `Document::parse` `unwrap` in `process` panics. -/
def envParsePanic : JobEnv :=
  { file_present := false, download := Except.ok (10, [10]),
    md5_io_ok := true, md5_matches := true, extract_ok := true,
    process_io_ok := false, parsed_articles := [], write_io_ok := true }

/-- C4: the claim states a parsing failure is reported as `ErrorParsing`
and the worker still filters and persists.  `process` has no `Err`
return (see `process_never_err`); its real failure mode is a panic,
which kills the worker task before any report, filtering or persisting. -/
theorem C4_parse_failure_panics :
    (Parser.run envParsePanic).panicked = true ∧
    ParserState.ErrorParsingFailed ∉ (Parser.run envParsePanic).reports ∧
    (Parser.run envParsePanic).ran_filter = false ∧
    (Parser.run envParsePanic).ran_write = false ∧
    (Parser.run envParsePanic).written = none := by
  decide

/-- The job environment of a persist failure: every stage up to writing
succeeds, then `File::create` (or `write_all`) fails, so the `unwrap` in
`write_output` panics. -/
def envWritePanic : JobEnv :=
  { file_present := false, download := Except.ok (10, [10]),
    md5_io_ok := true, md5_matches := true, extract_ok := true,
    process_io_ok := true, parsed_articles := [], write_io_ok := false }

/-- C6: the claim states a failing artifact write is reported as
`ErrorPersist` and the worker continues with the next job.
`write_output` returns `true` unconditionally (see
`write_output_returns_true`); a real write failure panics, killing the
worker task, and `ErrorWritingFailed` is never reported. -/
theorem C6_write_failure_panics :
    (Parser.run envWritePanic).panicked = true ∧
    ParserState.ErrorWritingFailed ∉ (Parser.run envWritePanic).reports ∧
    (Parser.run envWritePanic).written = none := by
  decide

/-- The `RunResult` of a skipped job: nothing reported, no stage run,
nothing written, no panic. -/
def skippedRun : RunResult :=
  { reports := [], ran_download := false, ran_check_md5 := false,
    ran_extract := false, ran_process := false, ran_filter := false,
    ran_write := false, written := none, panicked := false }

/-- C7: when the job's output artifact already exists, `run` returns
before any network or disk work: nothing is reported, no stage runs,
nothing is written (the existing artifact is untouched), and the worker
falls back into its claim loop — so a second run over completed jobs is
idempotent. -/
theorem C7_artifact_present_skips_job (env : JobEnv)
    (h : env.file_present = true) :
    Parser.run env = skippedRun := by
  unfold Parser.run
  simp [check_if_file_is_present, h, skippedRun]

/-- A job environment whose output artifact is already present. -/
def envPresent : JobEnv :=
  { file_present := true, download := Except.error (), md5_io_ok := false,
    md5_matches := false, extract_ok := false, process_io_ok := false,
    parsed_articles := [], write_io_ok := false }

/-- Witness for C7 at a concrete environment. -/
theorem C7_artifact_present_skips_job_witness :
    envPresent.file_present = true ∧ Parser.run envPresent = skippedRun :=
  ⟨rfl, C7_artifact_present_skips_job envPresent rfl⟩

/-- C8: every article contained in a written artifact is valid — a record
with an empty mandatory identifying field (title, identifier, date,
author list) is discarded inside `process` (before `filter_articles`)
and never reaches `write_output`. -/
theorem C8_written_articles_are_valid (env : JobEnv) (out : List Article)
    (h : (Parser.run env).written = some out) :
    ∀ a ∈ out, a.is_valid = true := by
  obtain ⟨fp, dl, mio, mm, exok, pio, arts, wio⟩ := env
  cases fp <;> cases dl <;> cases mio <;> cases exok <;> cases pio <;> cases wio <;>
    simp only [Parser.run, download, check_md5, extract, process, write_output,
      filter_articles, check_if_file_is_present, Bool.false_eq_true, if_false,
      if_true] at h <;>
    first
      | exact Option.noConfusion h
      | (injection h with h
         subst h
         intro a ha
         exact (List.mem_filter.mp (List.mem_filter.mp ha).1).2)

/-- A concrete valid, relevant article. -/
def articleOk : Article :=
  { title := "a cancer study", id := "10.1000/x1", paper_abstract := "on a tumor",
    authors := [{ first_name := "Ada", last_name := "Byron" }], tags := [],
    date := "2024-1-1", language := "eng" }

/-- A job environment whose single parsed article survives to the artifact. -/
def envOneArticle : JobEnv :=
  { file_present := false, download := Except.ok (10, [10]), md5_io_ok := true,
    md5_matches := true, extract_ok := true, process_io_ok := true,
    parsed_articles := [articleOk], write_io_ok := true }

/-- Witness for C8 at a concrete environment and article. -/
theorem C8_written_articles_are_valid_witness :
    (Parser.run envOneArticle).written = some [articleOk] ∧
    articleOk.is_valid = true :=
  ⟨by decide,
   C8_written_articles_are_valid envOneArticle [articleOk] (by decide)
     articleOk (by simp)⟩

/-- The IO outcomes of a job whose parse step panics (malformed XML
after a decoder error that `extract` discarded), used to drive the claim
loop into a panic exit. -/
def envC9Panic : JobEnv :=
  { file_present := false, download := Except.ok (10, [10]),
    md5_io_ok := true, md5_matches := true, extract_ok := true,
    process_io_ok := false, parsed_articles := [], write_io_ok := true }

/-- C9: the claim states the worker's claim loop ends only on allocator
exhaustion, with `Done` as the final status.  A panic escaping the job
body (real: `process`/`write_output` unwraps, see C4/C6) unwinds through
`try_restart` and kills the worker: with one job whose parse step
panics, the loop ends after claiming index 0, by panic and with no
`Done` report anywhere in the trace. -/
theorem C9_job_panic_ends_loop_without_done :
    try_restart (fun _ => envC9Panic) 2 1
      = some ([0], ParserState.Restarting :: (Parser.run envC9Panic).reports, true) ∧
    ParserState.Done ∉ ParserState.Restarting :: (Parser.run envC9Panic).reports := by
  decide

/-- The half of C9 that does hold: when no job body panics, the claim
loop terminates by exhaustion — fuel `c.toNat + 1` suffices — and its
trace ends with a final `Done`. -/
theorem try_restart_done_of_no_panic (envOf : Nat → JobEnv)
    (h : ∀ i, (Parser.run (envOf i)).panicked = false) :
    ∀ (n : Nat) (c : Int), c.toNat = n →
      ∃ cl tr, try_restart envOf (n + 1) c = some (cl, tr, false) ∧
        tr.getLast? = some ParserState.Done := by
  intro n
  induction n with
  | zero =>
    intro c hc
    have hc0 : c - 1 < 0 := by omega
    exact ⟨[], [ParserState.Done], by simp [try_restart, hc0], rfl⟩
  | succ k ih =>
    intro c hc
    have h1 : ¬ c - 1 < 0 := by omega
    obtain ⟨cl, tr, heq, hlast⟩ := ih (c - 1) (by omega)
    have htrne : tr ≠ [] := by
      intro hnil
      rw [hnil] at hlast
      simp at hlast
    refine ⟨(c - 1) :: cl,
      ParserState.Restarting :: ((Parser.run (envOf (c - 1).toNat)).reports ++ tr),
      ?_, ?_⟩
    · show (if c - 1 < 0 then some ([], [ParserState.Done], false)
        else
          let r := Parser.run (envOf (c - 1).toNat)
          if r.panicked then
            some ([c - 1], ParserState.Restarting :: r.reports, true)
          else
            match try_restart envOf (k + 1) (c - 1) with
            | none => none
            | some (cl, tr, p) =>
              some ((c - 1) :: cl, ParserState.Restarting :: (r.reports ++ tr), p)) = _
      rw [if_neg h1]
      simp only [h ((c - 1).toNat), Bool.false_eq_true, if_false, heq]
    · rw [show ParserState.Restarting
            :: ((Parser.run (envOf (c - 1).toNat)).reports ++ tr)
          = (ParserState.Restarting :: (Parser.run (envOf (c - 1).toNat)).reports) ++ tr
          from rfl]
      rw [List.getLast?_append_of_ne_nil _ htrne]
      exact hlast

/-- Appending the same string on the right is cancellable. -/
theorem string_append_right_cancel {a b t : String} (h : a ++ t = b ++ t) :
    a = b := by
  apply String.ext
  have hd : a.data ++ t.data = b.data ++ t.data := by
    have h2 := congrArg String.data h
    simpa [String.data_append] using h2
  exact List.append_left_injective t.data hd

/-- C10: all of a worker's staging paths extend its own `temp_dir`, so two
workers with distinct staging directories never share a staging path,
even for the same job index; the output artifact path is a function of
the index alone (identical across workers). -/
theorem C10_staging_paths_disjoint (tempA tempB : String) (i : Nat)
    (h : tempA ≠ tempB) :
    (∃ r, local_download_filename tempA i = tempA ++ r) ∧
    (∃ r, md5_file_name tempA i = tempA ++ r) ∧
    (∃ r, extracted_filename tempA i = tempA ++ r) ∧
    local_download_filename tempA i ≠ local_download_filename tempB i ∧
    md5_file_name tempA i ≠ md5_file_name tempB i ∧
    extracted_filename tempA i ≠ extracted_filename tempB i ∧
    output_filename i = "results_" ++ fname i ++ ".json" := by
  refine ⟨⟨"/" ++ (fname i ++ ".gz"), ?_⟩, ⟨"/" ++ (fname i ++ ".gz.md5"), ?_⟩,
    ⟨"/" ++ fname i, ?_⟩, ?_, ?_, ?_, rfl⟩
  · rw [local_download_filename, String.append_assoc]
  · rw [md5_file_name, String.append_assoc]
  · rw [extracted_filename, String.append_assoc]
  · intro heq
    rw [local_download_filename, local_download_filename,
      String.append_assoc, String.append_assoc] at heq
    exact h (string_append_right_cancel heq)
  · intro heq
    rw [md5_file_name, md5_file_name,
      String.append_assoc, String.append_assoc] at heq
    exact h (string_append_right_cancel heq)
  · intro heq
    rw [extracted_filename, extracted_filename,
      String.append_assoc, String.append_assoc] at heq
    exact h (string_append_right_cancel heq)

/-- Witness for C10 at concrete staging directories and index. -/
theorem C10_staging_paths_disjoint_witness :
    ("dirA" : String) ≠ "dirB" ∧
    ((∃ r, local_download_filename "dirA" 0 = "dirA" ++ r) ∧
     (∃ r, md5_file_name "dirA" 0 = "dirA" ++ r) ∧
     (∃ r, extracted_filename "dirA" 0 = "dirA" ++ r) ∧
     local_download_filename "dirA" 0 ≠ local_download_filename "dirB" 0 ∧
     md5_file_name "dirA" 0 ≠ md5_file_name "dirB" 0 ∧
     extracted_filename "dirA" 0 ≠ extracted_filename "dirB" 0 ∧
     output_filename 0 = "results_" ++ fname 0 ++ ".json") :=
  ⟨by decide, C10_staging_paths_disjoint "dirA" "dirB" 0 (by decide)⟩

/-- C5 counterexample: the claim says percentage reports are strictly
increasing per stage and bounded to `[0,100]`, reported only on a strict
floor increase.  `download` reports an unconditional final
`Downloading(100)` that can duplicate an already-reported 100, and with
an unknown content length (`content_length().unwrap_or(0)`) the saturated
cast reports 255 — outside `[0,100]` and followed by a smaller value. -/
theorem C5_download_reports_not_strictly_increasing :
    downloadReports 10 [10] = [0, 100, 100] ∧
    ¬ List.Chain' (fun a b => a < b) (downloadReports 10 [10]) ∧
    downloadReports 0 [1] = [0, 255, 100] := by
  refine ⟨by decide, ?_, by decide⟩
  have he : downloadReports 10 [10] = [0, 100, 100] := by decide
  rw [he]
  simp [List.chain'_cons]

/-- Invariant of the download chunk loop: with a positive known total not
exceeded by the received bytes, the loop's reports strictly increase
above `last` and stay within 100. -/
theorem downloadLoop_chain (total : Nat) (ht : 0 < total) :
    ∀ (chunks : List Nat) (p last : Nat), p + chunks.sum ≤ total →
      List.Chain' (fun a b => a < b) (downloadLoop total chunks p last) ∧
      ∀ x ∈ downloadLoop total chunks p last, last < x ∧ x ≤ 100 := by
  intro chunks
  induction chunks with
  | nil =>
    intro p last hsum
    simp [downloadLoop]
  | cons c rest ih =>
    intro p last hsum
    have hsum2 : (p + c) + rest.sum ≤ total := by
      simp only [List.sum_cons] at hsum
      omega
    have hle : p + c ≤ total := by omega
    have htne : ¬ total = 0 := by omega
    have hn100 : 100 * (p + c) / total ≤ 100 :=
      (Nat.div_le_iff_le_mul_add_pred ht).mpr (by omega)
    have h255 : 100 * (p + c) / total ≤ 255 := Nat.le_trans hn100 (by omega)
    have hv : pctVal (p + c) total = PctVal.fin (100 * (p + c) / total) := by
      simp [pctVal, htne]
    by_cases hgt : last < 100 * (p + c) / total
    · have hstep : downloadLoop total (c :: rest) p last
          = 100 * (p + c) / total
            :: downloadLoop total rest (p + c) (100 * (p + c) / total) := by
        simp [downloadLoop, hv, pctGt, pctCast, hgt, Nat.min_eq_left h255]
      obtain ⟨ihchain, ihmem⟩ := ih (p + c) (100 * (p + c) / total) hsum2
      rw [hstep]
      constructor
      · exact List.chain'_cons'.mpr
          ⟨fun y hy => (ihmem y (List.mem_of_mem_head? hy)).1, ihchain⟩
      · intro x hx
        rcases List.mem_cons.mp hx with hx | hx
        · subst hx
          exact ⟨hgt, hn100⟩
        · have h2 := ihmem x hx
          exact ⟨Nat.lt_trans hgt h2.1, h2.2⟩
    · have hstep : downloadLoop total (c :: rest) p last
          = downloadLoop total rest (p + c) last := by
        simp [downloadLoop, hv, pctGt, hgt]
      obtain ⟨ihchain, ihmem⟩ := ih (p + c) last hsum2
      rw [hstep]
      exact ⟨ihchain, ihmem⟩

/-- Invariant of the article loop of `process`: the loop's reports
strictly increase above `last` and stay within 100. -/
theorem processLoop_chain (total : Nat) (ht : 0 < total) :
    ∀ (k p last : Nat), p + k ≤ total →
      List.Chain' (fun a b => a < b) (processLoop total k p last) ∧
      ∀ x ∈ processLoop total k p last, last < x ∧ x ≤ 100 := by
  intro k
  induction k with
  | zero =>
    intro p last hsum
    simp [processLoop]
  | succ m ih =>
    intro p last hsum
    have hle : p + 1 ≤ total := by omega
    have hsum2 : (p + 1) + m ≤ total := by omega
    have htne : ¬ total = 0 := by omega
    have hn100 : 100 * (p + 1) / total ≤ 100 :=
      (Nat.div_le_iff_le_mul_add_pred ht).mpr (by omega)
    have h255 : 100 * (p + 1) / total ≤ 255 := Nat.le_trans hn100 (by omega)
    have hv : pctCast (pctVal (p + 1) total) = 100 * (p + 1) / total := by
      simp [pctVal, htne, pctCast, Nat.min_eq_left h255]
    by_cases hgt : last < 100 * (p + 1) / total
    · have hstep : processLoop total (m + 1) p last
          = 100 * (p + 1) / total
            :: processLoop total m (p + 1) (100 * (p + 1) / total) := by
        simp [processLoop, hv, hgt]
      obtain ⟨ihchain, ihmem⟩ := ih (p + 1) (100 * (p + 1) / total) hsum2
      rw [hstep]
      constructor
      · exact List.chain'_cons'.mpr
          ⟨fun y hy => (ihmem y (List.mem_of_mem_head? hy)).1, ihchain⟩
      · intro x hx
        rcases List.mem_cons.mp hx with hx | hx
        · subst hx
          exact ⟨hgt, hn100⟩
        · have h2 := ihmem x hx
          exact ⟨Nat.lt_trans hgt h2.1, h2.2⟩
    · have hstep : processLoop total (m + 1) p last
          = processLoop total m (p + 1) last := by
        simp [processLoop, hv, hgt]
      obtain ⟨ihchain, ihmem⟩ := ih (p + 1) last hsum2
      rw [hstep]
      exact ⟨ihchain, ihmem⟩

/-- A strictly increasing list bounded by 100 stays non-decreasing when
100 is appended. -/
theorem chain_le_append_100 :
    ∀ l : List Nat, List.Chain' (fun a b => a < b) l → (∀ x ∈ l, x ≤ 100) →
      List.Chain' (fun a b : Nat => a ≤ b) (l ++ [100])
  | [], _, _ => by simp
  | x :: xs, hc, hb => by
    rw [List.cons_append]
    refine List.chain'_cons'.mpr ⟨?_, ?_⟩
    · intro y hy
      cases xs with
      | nil =>
        have hx100 : x ≤ 100 := hb x (by simp)
        simp at hy
        omega
      | cons z zs =>
        simp at hy
        subst hy
        exact Nat.le_of_lt (List.chain'_cons.mp hc).1
    · exact chain_le_append_100 xs hc.tail
        (fun v hv => hb v (List.mem_cons_of_mem _ hv))

/-- C5 amended: within the chunk/article loops a percentage is reported
only on a strict floor increase, so the loop reports are strictly
increasing and lie in `[0,100]` (given a positive known content length
not exceeded by the received bytes).  The full `Downloading` sequence
adds an unconditional initial 0 and final 100, so as a whole it is only
non-decreasing — the final 100 may repeat — starting at 0 and ending at
100.  The full `Processing` sequence (initial 0, then its loop) is
strictly increasing in `[0,100]`, and the `Extracting` milestones
`0,10,90,100` are strictly increasing in `[0,100]`. -/
theorem C5_amended_percentage_reports (total ptotal : Nat) (chunks : List Nat)
    (ht : 0 < total) (hsum : chunks.sum ≤ total) :
    List.Chain' (fun a b : Nat => a ≤ b) (downloadReports total chunks) ∧
    (∀ x ∈ downloadReports total chunks, x ≤ 100) ∧
    (downloadReports total chunks).head? = some 0 ∧
    (downloadReports total chunks).getLast? = some 100 ∧
    List.Chain' (fun a b => a < b) (downloadLoop total chunks 0 0) ∧
    List.Chain' (fun a b => a < b) (processReports ptotal) ∧
    (∀ x ∈ processReports ptotal, x ≤ 100) ∧
    List.Chain' (fun a b => a < b) extractReportPcts ∧
    (∀ x ∈ extractReportPcts, x ≤ 100) := by
  obtain ⟨hchain, hmem⟩ := downloadLoop_chain total ht chunks 0 0 (by omega)
  refine ⟨?_, ?_, ?_, ?_, hchain, ?_, ?_, ?_, by decide⟩
  · rw [downloadReports]
    refine List.chain'_cons'.mpr ⟨fun y _ => Nat.zero_le y, ?_⟩
    exact chain_le_append_100 _ hchain (fun x hx => (hmem x hx).2)
  · intro x hx
    rw [downloadReports] at hx
    rcases List.mem_cons.mp hx with h | h
    · omega
    · rcases List.mem_append.mp h with h | h
      · exact (hmem x h).2
      · simp at h
        omega
  · rw [downloadReports]
    rfl
  · rw [downloadReports, show (0 : Nat) :: downloadLoop total chunks 0 0 ++ [100]
      = ((0 : Nat) :: downloadLoop total chunks 0 0) ++ [100] from rfl]
    exact List.getLast?_concat _
  · rcases Nat.eq_zero_or_pos ptotal with h0 | hpos
    · subst h0
      simp [processReports, processLoop]
    · obtain ⟨pchain, pmem⟩ := processLoop_chain ptotal hpos ptotal 0 0 (by omega)
      rw [processReports]
      exact List.chain'_cons'.mpr
        ⟨fun y hy => (pmem y (List.mem_of_mem_head? hy)).1, pchain⟩
  · intro x hx
    rw [processReports] at hx
    rcases List.mem_cons.mp hx with h | h
    · omega
    · rcases Nat.eq_zero_or_pos ptotal with h0 | hpos
      · subst h0
        simp [processLoop] at h
      · exact ((processLoop_chain ptotal hpos ptotal 0 0 (by omega)).2 x h).2
  · norm_num [extractReportPcts, List.chain'_cons]

/-- Witness for the amended C5 at a concrete content length, chunk list
and article count. -/
theorem C5_amended_percentage_reports_witness :
    (0 < 10 ∧ List.sum [5, 5] ≤ 10) ∧
    (List.Chain' (fun a b : Nat => a ≤ b) (downloadReports 10 [5, 5]) ∧
     (∀ x ∈ downloadReports 10 [5, 5], x ≤ 100) ∧
     (downloadReports 10 [5, 5]).head? = some 0 ∧
     (downloadReports 10 [5, 5]).getLast? = some 100 ∧
     List.Chain' (fun a b => a < b) (downloadLoop 10 [5, 5] 0 0) ∧
     List.Chain' (fun a b => a < b) (processReports 3) ∧
     (∀ x ∈ processReports 3, x ≤ 100) ∧
     List.Chain' (fun a b => a < b) extractReportPcts ∧
     (∀ x ∈ extractReportPcts, x ≤ 100)) :=
  ⟨⟨by decide, by decide⟩,
   C5_amended_percentage_reports 10 3 [5, 5] (by decide) (by decide)⟩
